import Mathlib

/-!
Verification development for the Beat Analyzer repository.

The filter engine is the function applyFilters in
src/frontend/src/pages/Dashboard.jsx (an identical copy sits in
src/unnamed/part_001).  It is embedded here over an explicit model of the
JavaScript values involved: a track record is an object whose fields may be
absent (modelled with Option), the search-filter state holds one string per
predicate (absent or empty strings are falsy), JavaScript numbers are
modelled as rationals, and a thrown TypeError is modelled with Except.

The Mongo index initialization script src/mongo-init.js is embedded as the
list of index specifications it creates.  The backend batch coordinator and
statistics endpoint are not part of the sources under src/ (only their
HTTP callers are), so those two operations are modelled from the spec, as
marked in their doc comments.
-/

namespace BeatAnalyzer

/-- One element of a track record field instruments: an object with a
name and a confidence. -/
structure Instrument where
  name : String
  confidence : Rat
deriving DecidableEq, Repr

/-- A track record as the filter code receives it: a JavaScript object whose
fields may be absent (absent is modelled as none; JavaScript numbers are
modelled as rationals). -/
structure Track where
  id : String
  user_id : Option String
  filename : Option String
  duration : Option Rat
  bpm : Option Rat
  key : Option String
  mood_tags : Option (List String)
  instruments : Option (List Instrument)
deriving DecidableEq, Repr

/-- The searchFilters state object of the Dashboard component: one entry per
predicate, each a string; none models an absent key (undefined), which the
code treats exactly like the empty string (both are falsy). -/
structure SearchFilters where
  min_bpm : Option String
  max_bpm : Option String
  key : Option String
  mood : Option String
  instrument : Option String
  filename : Option String
deriving DecidableEq, Repr

/-- The one JavaScript error the embedded code can throw: calling a method
of undefined (for example track.key.toLowerCase() when key is absent). -/
inductive JsError where
  | typeError
deriving DecidableEq, Repr

/-- JavaScript truthiness of an optional string: undefined and the empty
string are falsy, every other string is truthy. -/
def truthy : Option String → Bool
  | none => false
  | some s => !s.isEmpty

/-- Model of String.prototype.toLowerCase, character by character. -/
def jsLower (s : String) : String :=
  String.mk (s.data.map Char.toLower)

/-- listStartsWith hay pat: pat is an initial segment of hay. -/
def listStartsWith : List Char → List Char → Bool
  | _, [] => true
  | [], _ :: _ => false
  | a :: as, b :: bs => a == b && listStartsWith as bs

/-- listHasSegment hay pat: pat occurs contiguously inside hay. -/
def listHasSegment : List Char → List Char → Bool
  | [], pat => pat.isEmpty
  | a :: as, pat => listStartsWith (a :: as) pat || listHasSegment as pat

/-- Model of String.prototype.includes. -/
def jsIncludes (hay pat : String) : Bool :=
  listHasSegment hay.data pat.data

/-- Numeric value of a list of decimal digit characters. -/
def natFromDigits (ds : List Char) : Nat :=
  ds.foldl (fun a c => 10 * a + (c.toNat - 48)) 0

/-- Exponent tail of a numeric literal: an optional sign and digits after an
e or E marker; without digits the marker is ignored, as parseFloat does. -/
def expTail (q : Rat) (cs : List Char) : Rat :=
  let signAndRest : Bool × List Char :=
    match cs with
    | '-' :: rest => (true, rest)
    | '+' :: rest => (false, rest)
    | _ => (false, cs)
  let ds := signAndRest.2.takeWhile Char.isDigit
  if ds.isEmpty then q
  else if signAndRest.1 then q * mkRat 1 (10 ^ natFromDigits ds)
  else q * mkRat (Int.ofNat (10 ^ natFromDigits ds)) 1

/-- Exponent part of a numeric literal, if present. -/
def applyExponent (q : Rat) (cs : List Char) : Rat :=
  match cs with
  | 'e' :: rest => expTail q rest
  | 'E' :: rest => expTail q rest
  | _ => q

/-- Model of the global parseFloat: skip leading whitespace, read an optional
sign, decimal digits with an optional fractional part and an optional
exponent, and ignore any trailing characters; none models NaN (no digits at
all).  The Infinity literals are not modelled: the call sites feed parseFloat
from number-typed input fields. -/
def parseFloat (s : String) : Option Rat :=
  let cs := s.data.dropWhile fun c => c == ' ' || c == '\t' || c == '\n' || c == '\r'
  let signAndRest : Int × List Char :=
    match cs with
    | '-' :: rest => (-1, rest)
    | '+' :: rest => (1, rest)
    | _ => (1, cs)
  let cs1 := signAndRest.2
  let ip := cs1.takeWhile Char.isDigit
  let cs2 := cs1.dropWhile Char.isDigit
  let fracAndRest : List Char × List Char :=
    match cs2 with
    | '.' :: rest => (rest.takeWhile Char.isDigit, rest.dropWhile Char.isDigit)
    | _ => ([], cs2)
  let fp := fracAndRest.1
  if ip.isEmpty && fp.isEmpty then none
  else
    let mant : Rat := mkRat (signAndRest.1 * Int.ofNat (natFromDigits (ip ++ fp))) (10 ^ fp.length)
    some (applyExponent mant fracAndRest.2)

/-- The filename predicate of applyFilters:
track.filename.toLowerCase().includes(pat.toLowerCase()).
Accessing toLowerCase on an absent filename throws a TypeError. -/
def filenameTest (pat : String) (t : Track) : Except JsError Bool :=
  match t.filename with
  | none => .error .typeError
  | some f => .ok (jsIncludes (jsLower f) (jsLower pat))

/-- Value of the JavaScript comparison track.bpm >= parseFloat(v): a
comparison with undefined or NaN on either side is false. -/
def minBpmCheck (v : String) (t : Track) : Bool :=
  match t.bpm, parseFloat v with
  | some b, some m => decide (m ≤ b)
  | _, _ => false

/-- Value of the JavaScript comparison track.bpm <= parseFloat(v). -/
def maxBpmCheck (v : String) (t : Track) : Bool :=
  match t.bpm, parseFloat v with
  | some b, some m => decide (b ≤ m)
  | _, _ => false

/-- The min-BPM predicate of applyFilters: track.bpm >= parseFloat(v).
It never throws. -/
def minBpmTest (v : String) (t : Track) : Except JsError Bool :=
  .ok (minBpmCheck v t)

/-- The max-BPM predicate of applyFilters: track.bpm <= parseFloat(v).
It never throws. -/
def maxBpmTest (v : String) (t : Track) : Except JsError Bool :=
  .ok (maxBpmCheck v t)

/-- The key predicate of applyFilters:
track.key.toLowerCase().includes(pat.toLowerCase()). -/
def keyTest (pat : String) (t : Track) : Except JsError Bool :=
  match t.key with
  | none => .error .typeError
  | some k => .ok (jsIncludes (jsLower k) (jsLower pat))

/-- The mood predicate of applyFilters:
track.mood_tags.some(mood => mood.toLowerCase().includes(pat.toLowerCase())). -/
def moodTest (pat : String) (t : Track) : Except JsError Bool :=
  match t.mood_tags with
  | none => .error .typeError
  | some ms => .ok (ms.any fun m => jsIncludes (jsLower m) (jsLower pat))

/-- The instrument predicate of applyFilters:
track.instruments.some(inst => inst.name.toLowerCase().includes(pat.toLowerCase())). -/
def instrumentTest (pat : String) (t : Track) : Except JsError Bool :=
  match t.instruments with
  | none => .error .typeError
  | some li => .ok (li.any fun i => jsIncludes (jsLower i.name) (jsLower pat))

/-- Model of Array.prototype.filter with a callback that can throw: the
callback runs on the elements in order and the first thrown error aborts
the whole pass. -/
def filterM (p : Track → Except JsError Bool) : List Track → Except JsError (List Track)
  | [] => .ok []
  | t :: ts =>
    match p t with
    | .error e => .error e
    | .ok b =>
      match filterM p ts with
      | .error e => .error e
      | .ok rest => .ok (if b then t :: rest else rest)

/-- One guarded pass of applyFilters: the filter body runs only when the
corresponding search string is truthy. -/
def runFilter (cond : Bool) (p : Track → Except JsError Bool) (ts : List Track) :
    Except JsError (List Track) :=
  if cond then filterM p ts else .ok ts

/-- Sequential composition of guarded filter passes, short-circuiting on a
thrown error. -/
def applyPasses : List (Bool × (Track → Except JsError Bool)) → List Track →
    Except JsError (List Track)
  | [], ts => .ok ts
  | (c, p) :: rest, ts =>
    match runFilter c p ts with
    | .error e => .error e
    | .ok l => applyPasses rest l

/-- The six passes of applyFilters in source order: filename, min_bpm,
max_bpm, key, mood, instrument.  Each pass is guarded by the truthiness of
its search string and each pattern is read with getD, matching the
JavaScript reads of the possibly absent searchFilters entries. -/
def passes (sf : SearchFilters) : List (Bool × (Track → Except JsError Bool)) :=
  [ (truthy sf.filename, filenameTest (sf.filename.getD "")),
    (truthy sf.min_bpm, minBpmTest (sf.min_bpm.getD "")),
    (truthy sf.max_bpm, maxBpmTest (sf.max_bpm.getD "")),
    (truthy sf.key, keyTest (sf.key.getD "")),
    (truthy sf.mood, moodTest (sf.mood.getD "")),
    (truthy sf.instrument, instrumentTest (sf.instrument.getD "")) ]

/-- applyFilters from Dashboard.jsx: start from a shallow copy of tracks and
run the six guarded filter passes over it in source order. -/
def applyFilters (sf : SearchFilters) (ts : List Track) : Except JsError (List Track) :=
  applyPasses (passes sf) ts

/-! ### Lemmas about one filter pass -/

theorem filterM_mem {p : Track → Except JsError Bool} {l r : List Track} {t : Track}
    (h : filterM p l = .ok r) (ht : t ∈ r) : t ∈ l ∧ p t = .ok true := by
  induction l generalizing r with
  | nil =>
    rw [filterM] at h
    cases h
    cases ht
  | cons a l ih =>
    rw [filterM] at h
    cases hp : p a with
    | error e => rw [hp] at h; cases h
    | ok b =>
      rw [hp] at h
      cases hrec : filterM p l with
      | error e => rw [hrec] at h; cases h
      | ok rest =>
        rw [hrec] at h
        injection h with h
        subst h
        cases b with
        | true =>
          rcases List.mem_cons.mp (by simpa using ht) with hEq | hmem
          · subst hEq; exact ⟨List.mem_cons_self _ _, hp⟩
          · obtain ⟨h1, h2⟩ := ih hrec hmem
            exact ⟨List.mem_cons_of_mem _ h1, h2⟩
        | false =>
          obtain ⟨h1, h2⟩ := ih hrec (by simpa using ht)
          exact ⟨List.mem_cons_of_mem _ h1, h2⟩

theorem filterM_self_sublist {p : Track → Except JsError Bool} {l r : List Track}
    (h : filterM p l = .ok r) : r.Sublist l := by
  induction l generalizing r with
  | nil =>
    rw [filterM] at h
    cases h
    exact List.Sublist.refl _
  | cons a l ih =>
    rw [filterM] at h
    cases hp : p a with
    | error e => rw [hp] at h; cases h
    | ok b =>
      rw [hp] at h
      cases hrec : filterM p l with
      | error e => rw [hrec] at h; cases h
      | ok rest =>
        rw [hrec] at h
        injection h with h
        subst h
        cases b with
        | true => simpa using List.Sublist.cons₂ a (ih hrec)
        | false => simpa using List.Sublist.cons a (ih hrec)

theorem filterM_mono {p : Track → Except JsError Bool} {l1 l2 r2 : List Track}
    (hsub : l1.Sublist l2) (h : filterM p l2 = .ok r2) :
    ∃ r1, filterM p l1 = .ok r1 ∧ r1.Sublist r2 := by
  induction hsub generalizing r2 with
  | slnil =>
    rw [filterM] at h
    cases h
    exact ⟨[], rfl, List.Sublist.refl _⟩
  | cons a hsub ih =>
    rename_i u v
    rw [filterM] at h
    cases hp : p a with
    | error e => rw [hp] at h; cases h
    | ok b =>
      rw [hp] at h
      cases hrec : filterM p v with
      | error e => rw [hrec] at h; cases h
      | ok rest =>
        rw [hrec] at h
        injection h with h
        subst h
        obtain ⟨r1, hr1, hr1sub⟩ := ih hrec
        refine ⟨r1, hr1, ?_⟩
        cases b with
        | true => simpa using List.Sublist.cons a hr1sub
        | false => simpa using hr1sub
  | cons₂ a hsub ih =>
    rename_i u v
    rw [filterM] at h
    cases hp : p a with
    | error e => rw [hp] at h; cases h
    | ok b =>
      rw [hp] at h
      cases hrec : filterM p v with
      | error e => rw [hrec] at h; cases h
      | ok rest =>
        rw [hrec] at h
        injection h with h
        subst h
        obtain ⟨r1, hr1, hr1sub⟩ := ih hrec
        refine ⟨if b then a :: r1 else r1, ?_, ?_⟩
        · rw [filterM, hp, hr1]
        · cases b with
          | true => simpa using List.Sublist.cons₂ a hr1sub
          | false => simpa using hr1sub

theorem runFilter_mem {c : Bool} {p : Track → Except JsError Bool} {l r : List Track} {t : Track}
    (h : runFilter c p l = .ok r) (ht : t ∈ r) : t ∈ l ∧ (c = true → p t = .ok true) := by
  cases c with
  | true =>
    obtain ⟨h1, h2⟩ := filterM_mem (by simpa [runFilter] using h) ht
    exact ⟨h1, fun _ => h2⟩
  | false =>
    simp [runFilter] at h
    subst h
    exact ⟨ht, fun hc => by cases hc⟩

theorem runFilter_self_sublist {c : Bool} {p : Track → Except JsError Bool} {l r : List Track}
    (h : runFilter c p l = .ok r) : r.Sublist l := by
  cases c with
  | true => exact filterM_self_sublist (by simpa [runFilter] using h)
  | false =>
    simp [runFilter] at h
    subst h
    exact List.Sublist.refl _

theorem runFilter_mono {c : Bool} {p : Track → Except JsError Bool} {l1 l2 r2 : List Track}
    (hsub : l1.Sublist l2) (h : runFilter c p l2 = .ok r2) :
    ∃ r1, runFilter c p l1 = .ok r1 ∧ r1.Sublist r2 := by
  cases c with
  | true =>
    obtain ⟨r1, hr1, hr1sub⟩ := filterM_mono hsub (by simpa [runFilter] using h)
    exact ⟨r1, by simpa [runFilter] using hr1, hr1sub⟩
  | false =>
    simp [runFilter] at h
    subst h
    exact ⟨l1, by simp [runFilter], hsub⟩

/-! ### Lemmas about the pass chain -/

theorem applyPasses_mem {ps : List (Bool × (Track → Except JsError Bool))}
    {l r : List Track} {t : Track}
    (h : applyPasses ps l = .ok r) (ht : t ∈ r) :
    t ∈ l ∧ ∀ cp ∈ ps, cp.1 = true → cp.2 t = .ok true := by
  induction ps generalizing l with
  | nil =>
    rw [applyPasses] at h
    cases h
    exact ⟨ht, by intro cp hcp; cases hcp⟩
  | cons cp rest ih =>
    obtain ⟨c, p⟩ := cp
    rw [applyPasses] at h
    cases hrf : runFilter c p l with
    | error e => rw [hrf] at h; cases h
    | ok m =>
      rw [hrf] at h
      obtain ⟨htm, hrest⟩ := ih h
      obtain ⟨htl, hc⟩ := runFilter_mem hrf htm
      refine ⟨htl, ?_⟩
      intro x hx
      rcases List.mem_cons.mp hx with hEq | hmem
      · subst hEq; exact hc
      · exact hrest x hmem

theorem applyPasses_self_sublist {ps : List (Bool × (Track → Except JsError Bool))}
    {l r : List Track} (h : applyPasses ps l = .ok r) : r.Sublist l := by
  induction ps generalizing l with
  | nil =>
    rw [applyPasses] at h
    cases h
    exact List.Sublist.refl _
  | cons cp rest ih =>
    obtain ⟨c, p⟩ := cp
    rw [applyPasses] at h
    cases hrf : runFilter c p l with
    | error e => rw [hrf] at h; cases h
    | ok m =>
      rw [hrf] at h
      exact (ih h).trans (runFilter_self_sublist hrf)

theorem applyPasses_mono {ps : List (Bool × (Track → Except JsError Bool))}
    {l1 l2 r2 : List Track}
    (hsub : l1.Sublist l2) (h : applyPasses ps l2 = .ok r2) :
    ∃ r1, applyPasses ps l1 = .ok r1 ∧ r1.Sublist r2 := by
  induction ps generalizing l1 l2 r2 with
  | nil =>
    rw [applyPasses] at h
    cases h
    exact ⟨l1, rfl, hsub⟩
  | cons cp rest ih =>
    obtain ⟨c, p⟩ := cp
    rw [applyPasses] at h
    cases hrf : runFilter c p l2 with
    | error e => rw [hrf] at h; cases h
    | ok m2 =>
      rw [hrf] at h
      obtain ⟨m1, hm1, hm1sub⟩ := runFilter_mono hsub hrf
      obtain ⟨r1, hr1, hr1sub⟩ := ih hm1sub h
      refine ⟨r1, ?_, hr1sub⟩
      rw [applyPasses, hm1]
      exact hr1

/-- Deactivating one pass in the middle of a chain can only enlarge the
ok-result: the run with the pass active yields a sublist of the run with
the pass replaced by an inactive one. -/
theorem applyPasses_drop_mid (pre post : List (Bool × (Track → Except JsError Bool)))
    (c : Bool) (p q : Track → Except JsError Bool) {l r r' : List Track}
    (h1 : applyPasses (pre ++ (c, p) :: post) l = .ok r')
    (h2 : applyPasses (pre ++ (false, q) :: post) l = .ok r) :
    r'.Sublist r := by
  induction pre generalizing l with
  | nil =>
    rw [List.nil_append] at h1 h2
    have h2' : applyPasses post l = .ok r := h2
    rw [applyPasses] at h1
    cases hrf : runFilter c p l with
    | error e => rw [hrf] at h1; cases h1
    | ok m =>
      rw [hrf] at h1
      have h1' : applyPasses post m = .ok r' := h1
      obtain ⟨r1, hr1, hr1sub⟩ := applyPasses_mono (runFilter_self_sublist hrf) h2'
      rw [h1'] at hr1
      injection hr1 with hr1
      subst hr1
      exact hr1sub
  | cons cp pre ih =>
    obtain ⟨c0, p0⟩ := cp
    rw [List.cons_append, applyPasses] at h1 h2
    cases hrf : runFilter c0 p0 l with
    | error e => rw [hrf] at h1; cases h1
    | ok m =>
      rw [hrf] at h1 h2
      exact ih h1 h2

/-! ### Reading the individual predicates -/

theorem minBpmCheck_true {v : String} {t : Track} (h : minBpmCheck v t = true) :
    ∃ b m, t.bpm = some b ∧ parseFloat v = some m ∧ m ≤ b := by
  cases hb : t.bpm with
  | none => simp [minBpmCheck, hb] at h
  | some b =>
    cases hm : parseFloat v with
    | none => simp [minBpmCheck, hb, hm] at h
    | some m =>
      simp [minBpmCheck, hb, hm] at h
      exact ⟨b, m, rfl, rfl, h⟩

theorem maxBpmCheck_true {v : String} {t : Track} (h : maxBpmCheck v t = true) :
    ∃ b m, t.bpm = some b ∧ parseFloat v = some m ∧ b ≤ m := by
  cases hb : t.bpm with
  | none => simp [maxBpmCheck, hb] at h
  | some b =>
    cases hm : parseFloat v with
    | none => simp [maxBpmCheck, hb, hm] at h
    | some m =>
      simp [maxBpmCheck, hb, hm] at h
      exact ⟨b, m, rfl, rfl, h⟩

theorem minBpmTest_ok_true {v : String} {t : Track} (h : minBpmTest v t = .ok true) :
    ∃ b m, t.bpm = some b ∧ parseFloat v = some m ∧ m ≤ b := by
  apply minBpmCheck_true
  injection h

theorem maxBpmTest_ok_true {v : String} {t : Track} (h : maxBpmTest v t = .ok true) :
    ∃ b m, t.bpm = some b ∧ parseFloat v = some m ∧ b ≤ m := by
  apply maxBpmCheck_true
  injection h

theorem keyTest_ok_true {pat : String} {t : Track} (h : keyTest pat t = .ok true) :
    ∃ k, t.key = some k ∧ jsIncludes (jsLower k) (jsLower pat) = true := by
  cases hk : t.key with
  | none => simp [keyTest, hk] at h
  | some k =>
    simp [keyTest, hk] at h
    exact ⟨k, rfl, h⟩

theorem filenameTest_ok_true {pat : String} {t : Track} (h : filenameTest pat t = .ok true) :
    ∃ f, t.filename = some f ∧ jsIncludes (jsLower f) (jsLower pat) = true := by
  cases hf : t.filename with
  | none => simp [filenameTest, hf] at h
  | some f =>
    simp [filenameTest, hf] at h
    exact ⟨f, rfl, h⟩

theorem moodTest_ok_true {pat : String} {t : Track} (h : moodTest pat t = .ok true) :
    ∃ ms, t.mood_tags = some ms ∧ ∃ m ∈ ms, jsIncludes (jsLower m) (jsLower pat) = true := by
  cases hms : t.mood_tags with
  | none => simp [moodTest, hms] at h
  | some ms =>
    simp [moodTest, hms, List.any_eq_true] at h
    exact ⟨ms, rfl, h⟩

theorem instrumentTest_ok_true {pat : String} {t : Track} (h : instrumentTest pat t = .ok true) :
    ∃ li, t.instruments = some li ∧ ∃ i ∈ li, jsIncludes (jsLower i.name) (jsLower pat) = true := by
  cases hli : t.instruments with
  | none => simp [instrumentTest, hli] at h
  | some li =>
    simp [instrumentTest, hli, List.any_eq_true] at h
    exact ⟨li, rfl, h⟩

/-! ### Computation lemmas for whole passes -/

theorem filterM_minBpm (v : String) (l : List Track) :
    filterM (minBpmTest v) l = .ok (l.filter (minBpmCheck v)) := by
  induction l with
  | nil => rfl
  | cons a l ih => simp [filterM, minBpmTest, ih, List.filter_cons]

theorem filterM_maxBpm (v : String) (l : List Track) :
    filterM (maxBpmTest v) l = .ok (l.filter (maxBpmCheck v)) := by
  induction l with
  | nil => rfl
  | cons a l ih => simp [filterM, maxBpmTest, ih, List.filter_cons]

theorem filterM_error_of_mem {p : Track → Except JsError Bool} {ts : List Track} {t : Track}
    (ht : t ∈ ts) (he : p t = .error .typeError) :
    filterM p ts = .error .typeError := by
  induction ts with
  | nil => cases ht
  | cons a ts ih =>
    rw [filterM]
    rcases List.mem_cons.mp ht with hEq | hmem
    · subst hEq
      rw [he]
    · cases hpa : p a with
      | error e => cases e; rfl
      | ok b => rw [ih hmem]

theorem applyPasses_cons_false (q : Track → Except JsError Bool)
    (ps : List (Bool × (Track → Except JsError Bool))) (l : List Track) :
    applyPasses ((false, q) :: ps) l = applyPasses ps l := rfl

theorem applyPasses_cons_true_ok {p : Track → Except JsError Bool}
    {ps : List (Bool × (Track → Except JsError Bool))} {l m : List Track}
    (h : filterM p l = .ok m) :
    applyPasses ((true, p) :: ps) l = applyPasses ps m := by
  rw [applyPasses]
  rw [show runFilter true p l = .ok m by simpa [runFilter] using h]

theorem applyPasses_cons_true_error {p : Track → Except JsError Bool}
    {ps : List (Bool × (Track → Except JsError Bool))} {l : List Track} {e : JsError}
    (h : filterM p l = .error e) :
    applyPasses ((true, p) :: ps) l = .error e := by
  rw [applyPasses]
  rw [show runFilter true p l = .error e by simpa [runFilter] using h]

/-- One of the six predicate entries of the searchFilters object. -/
inductive FilterField where
  | min_bpm
  | max_bpm
  | key
  | mood
  | instrument
  | filename
deriving DecidableEq, Repr

/-- Overwrite one predicate entry of a searchFilters object. -/
def setField (sf : SearchFilters) (f : FilterField) (v : Option String) : SearchFilters :=
  match f with
  | .min_bpm => { sf with min_bpm := v }
  | .max_bpm => { sf with max_bpm := v }
  | .key => { sf with key := v }
  | .mood => { sf with mood := v }
  | .instrument => { sf with instrument := v }
  | .filename => { sf with filename := v }

/-- Sample track used by concrete witnesses: all fields present. -/
def sampleTrack : Track :=
  ⟨"t1", none, some "Beat One.wav", some 60, some 130, some "A minor",
    some ["energetic", "uplifting"], some [⟨"piano", mkRat 9 10⟩]⟩

/-- Second sample track used by concrete witnesses: all fields present. -/
def slowTrack : Track :=
  ⟨"t2", none, some "slow groove.mp3", some 75, some 90, some "C major",
    some ["calm"], some [⟨"guitar", mkRat 1 2⟩]⟩

/-- A track record with no key field, as the absence claims discuss. -/
def noKeyTrack : Track :=
  ⟨"t3", none, some "untitled.wav", some 10, some 100, none, some [], some []⟩

/-- A track record with no bpm field. -/
def noBpmTrack : Track :=
  ⟨"t4", none, some "ambient.wav", some 20, none, some "D minor", some ["calm"], some []⟩

/-- A track record with no filename field. -/
def noFilenameTrack : Track :=
  ⟨"t5", none, none, some 30, some 120, some "E minor", some [], some []⟩

/-- A track record with no mood_tags field. -/
def noMoodTrack : Track :=
  ⟨"t6", none, some "moody.wav", some 30, some 120, some "E minor", none, some []⟩

/-- A track record with no instruments field. -/
def noInstrumentTrack : Track :=
  ⟨"t7", none, some "solo.wav", some 30, some 120, some "E minor", some [], none⟩

/-- A filter specification whose only supplied predicate is the key. -/
def keyOnlyFilters : SearchFilters := ⟨none, none, some "c", none, none, none⟩

/-- A filter specification whose only supplied predicate is the filename. -/
def filenameOnlyFilters : SearchFilters := ⟨none, none, none, none, none, some "a"⟩

/-- A filter specification whose only supplied predicate is the mood. -/
def moodOnlyFilters : SearchFilters := ⟨none, none, none, some "c", none, none⟩

/-- A filter specification whose only supplied predicate is the instrument. -/
def instrumentOnlyFilters : SearchFilters := ⟨none, none, none, none, some "p", none⟩

/-! ### The claims about applyFilters -/

/-- C1: for every list of track records and every filter specification,
every record in the list returned by applyFilters satisfies every active
predicate conjointly: its bpm is at least the parsed min_bpm and at most
the parsed max_bpm for whichever bounds are supplied, its key contains the
key pattern case-insensitively, its filename contains the filename pattern
case-insensitively, some element of its mood_tags contains the mood pattern
case-insensitively, and some instruments name contains the instrument
pattern case-insensitively. -/
theorem applyFilters_satisfies_active_predicates
    (sf : SearchFilters) (ts res : List Track) (t : Track)
    (hok : applyFilters sf ts = .ok res) (ht : t ∈ res) :
    (truthy sf.min_bpm = true →
      ∃ b m, t.bpm = some b ∧ parseFloat (sf.min_bpm.getD "") = some m ∧ m ≤ b)
  ∧ (truthy sf.max_bpm = true →
      ∃ b m, t.bpm = some b ∧ parseFloat (sf.max_bpm.getD "") = some m ∧ b ≤ m)
  ∧ (truthy sf.key = true →
      ∃ k, t.key = some k ∧ jsIncludes (jsLower k) (jsLower (sf.key.getD "")) = true)
  ∧ (truthy sf.filename = true →
      ∃ f, t.filename = some f ∧ jsIncludes (jsLower f) (jsLower (sf.filename.getD "")) = true)
  ∧ (truthy sf.mood = true →
      ∃ ms, t.mood_tags = some ms ∧
        ∃ m ∈ ms, jsIncludes (jsLower m) (jsLower (sf.mood.getD "")) = true)
  ∧ (truthy sf.instrument = true →
      ∃ li, t.instruments = some li ∧
        ∃ i ∈ li, jsIncludes (jsLower i.name) (jsLower (sf.instrument.getD "")) = true) := by
  obtain ⟨-, hall⟩ := applyPasses_mem hok ht
  refine ⟨?_, ?_, ?_, ?_, ?_, ?_⟩
  · intro hc
    exact minBpmTest_ok_true
      (hall (truthy sf.min_bpm, minBpmTest (sf.min_bpm.getD "")) (by simp [passes]) hc)
  · intro hc
    exact maxBpmTest_ok_true
      (hall (truthy sf.max_bpm, maxBpmTest (sf.max_bpm.getD "")) (by simp [passes]) hc)
  · intro hc
    exact keyTest_ok_true
      (hall (truthy sf.key, keyTest (sf.key.getD "")) (by simp [passes]) hc)
  · intro hc
    exact filenameTest_ok_true
      (hall (truthy sf.filename, filenameTest (sf.filename.getD "")) (by simp [passes]) hc)
  · intro hc
    exact moodTest_ok_true
      (hall (truthy sf.mood, moodTest (sf.mood.getD "")) (by simp [passes]) hc)
  · intro hc
    exact instrumentTest_ok_true
      (hall (truthy sf.instrument, instrumentTest (sf.instrument.getD "")) (by simp [passes]) hc)

/-- Witness for C1: a concrete run with every predicate supplied in which
the single surviving record satisfies every predicate. -/
theorem applyFilters_satisfies_active_predicates_witness :
    applyFilters ⟨some "100", some "140", some "minor", some "ener", some "pia", some "one"⟩
        [sampleTrack, slowTrack] = .ok [sampleTrack]
  ∧ ((truthy (some "100") = true →
      ∃ b m, sampleTrack.bpm = some b ∧ parseFloat "100" = some m ∧ m ≤ b)
    ∧ (truthy (some "140") = true →
      ∃ b m, sampleTrack.bpm = some b ∧ parseFloat "140" = some m ∧ b ≤ m)
    ∧ (truthy (some "minor") = true →
      ∃ k, sampleTrack.key = some k ∧ jsIncludes (jsLower k) (jsLower "minor") = true)
    ∧ (truthy (some "one") = true →
      ∃ f, sampleTrack.filename = some f ∧ jsIncludes (jsLower f) (jsLower "one") = true)
    ∧ (truthy (some "ener") = true →
      ∃ ms, sampleTrack.mood_tags = some ms ∧
        ∃ m ∈ ms, jsIncludes (jsLower m) (jsLower "ener") = true)
    ∧ (truthy (some "pia") = true →
      ∃ li, sampleTrack.instruments = some li ∧
        ∃ i ∈ li, jsIncludes (jsLower i.name) (jsLower "pia") = true)) :=
  ⟨rfl, applyFilters_satisfies_active_predicates
    ⟨some "100", some "140", some "minor", some "ener", some "pia", some "one"⟩
    [sampleTrack, slowTrack] [sampleTrack] sampleTrack rfl (by simp)⟩

/-- C9: for every list of track records and every filter specification, an
ok result of applyFilters is a sublist of the input list: it preserves the
relative order of the input records, adds no duplicates, and contains only
records drawn from the input. -/
theorem applyFilters_sublist (sf : SearchFilters) (ts res : List Track)
    (h : applyFilters sf ts = .ok res) : res.Sublist ts :=
  applyPasses_self_sublist h

/-- Witness for C9: a concrete run whose result is a sublist of the input. -/
theorem applyFilters_sublist_witness :
    applyFilters ⟨some "100", none, none, none, none, none⟩ [sampleTrack, slowTrack] =
        .ok [sampleTrack]
  ∧ [sampleTrack].Sublist [sampleTrack, slowTrack] :=
  ⟨rfl, applyFilters_sublist ⟨some "100", none, none, none, none, none⟩
    [sampleTrack, slowTrack] [sampleTrack] rfl⟩

/-- C3: for every list of track records and every filter specification,
setting any one predicate field to the empty string produces exactly the
same result as omitting that field entirely: empty strings and absent
entries are both falsy, so the pass is skipped either way. -/
theorem applyFilters_empty_string_eq_omitted (sf : SearchFilters) (ts : List Track) :
    applyFilters { sf with min_bpm := some "" } ts = applyFilters { sf with min_bpm := none } ts
  ∧ applyFilters { sf with max_bpm := some "" } ts = applyFilters { sf with max_bpm := none } ts
  ∧ applyFilters { sf with key := some "" } ts = applyFilters { sf with key := none } ts
  ∧ applyFilters { sf with mood := some "" } ts = applyFilters { sf with mood := none } ts
  ∧ applyFilters { sf with instrument := some "" } ts
      = applyFilters { sf with instrument := none } ts
  ∧ applyFilters { sf with filename := some "" } ts
      = applyFilters { sf with filename := none } ts :=
  ⟨rfl, rfl, rfl, rfl, rfl, rfl⟩

/-- C2: for every list of track records, a filter specification whose two
BPM bounds are supplied and parse to an inverted range (min greater than
max) and whose other predicates are not active is accepted and yields the
empty list, never an error, and the bounds are not swapped. -/
theorem applyFilters_inverted_range_empty (sf : SearchFilters) (ts : List Track) (m1 m2 : Rat)
    (hmin : truthy sf.min_bpm = true) (hmax : truthy sf.max_bpm = true)
    (hp1 : parseFloat (sf.min_bpm.getD "") = some m1)
    (hp2 : parseFloat (sf.max_bpm.getD "") = some m2)
    (hlt : m2 < m1)
    (hf : truthy sf.filename = false) (hk : truthy sf.key = false)
    (hm : truthy sf.mood = false) (hi : truthy sf.instrument = false) :
    applyFilters sf ts = .ok [] := by
  have hempty : (ts.filter (minBpmCheck (sf.min_bpm.getD ""))).filter
      (maxBpmCheck (sf.max_bpm.getD "")) = [] := by
    rw [List.filter_eq_nil_iff]
    intro t htmem hmaxc
    obtain ⟨b, m, hb, hpm, hbm⟩ := maxBpmCheck_true hmaxc
    obtain ⟨b', m', hb', hpm', hmb'⟩ := minBpmCheck_true (List.of_mem_filter htmem)
    rw [hb] at hb'
    injection hb' with hb'
    rw [hpm] at hp2
    injection hp2 with hp2
    rw [hpm'] at hp1
    injection hp1 with hp1
    subst hb' hp1 hp2
    exact absurd (le_trans hmb' hbm) (not_le.mpr hlt)
  unfold applyFilters passes
  rw [hf, hmin, hmax, hk, hm, hi]
  rw [applyPasses_cons_false]
  rw [applyPasses_cons_true_ok (filterM_minBpm _ _)]
  rw [applyPasses_cons_true_ok (filterM_maxBpm _ _)]
  rw [hempty]
  rfl

/-- Witness for C2: the spec scenario min_bpm 120 and max_bpm 100 over a
library with tracks at 130 and 90 BPM returns the empty list. -/
theorem applyFilters_inverted_range_empty_witness :
    truthy (some "120") = true ∧ truthy (some "100") = true
  ∧ parseFloat "120" = some 120 ∧ parseFloat "100" = some 100
  ∧ (100 : Rat) < 120
  ∧ applyFilters ⟨some "120", some "100", none, none, none, none⟩ [sampleTrack, slowTrack] =
      .ok [] :=
  ⟨rfl, rfl, rfl, rfl, by norm_num,
    applyFilters_inverted_range_empty ⟨some "120", some "100", none, none, none, none⟩
      [sampleTrack, slowTrack] 120 100 rfl rfl rfl rfl (by norm_num) rfl rfl rfl rfl⟩

/-- C5: filtering with one predicate field omitted returns a superset of (or
the same list as) filtering with that field supplied, whenever both runs
return without an error; in particular omitting a field can only enlarge
the result compared to any supplied value, matching or not. -/
theorem applyFilters_omitted_superset (fld : FilterField) (v : String) (sf : SearchFilters)
    (ts res res' : List Track)
    (h1 : applyFilters (setField sf fld (some v)) ts = .ok res')
    (h2 : applyFilters (setField sf fld none) ts = .ok res) :
    res' ⊆ res := by
  cases fld with
  | min_bpm =>
    have h1' : applyPasses
        ([(truthy sf.filename, filenameTest (sf.filename.getD ""))] ++
          (truthy (some v), minBpmTest v) ::
          [(truthy sf.max_bpm, maxBpmTest (sf.max_bpm.getD "")),
           (truthy sf.key, keyTest (sf.key.getD "")),
           (truthy sf.mood, moodTest (sf.mood.getD "")),
           (truthy sf.instrument, instrumentTest (sf.instrument.getD ""))]) ts = .ok res' := h1
    have h2' : applyPasses
        ([(truthy sf.filename, filenameTest (sf.filename.getD ""))] ++
          (false, minBpmTest "") ::
          [(truthy sf.max_bpm, maxBpmTest (sf.max_bpm.getD "")),
           (truthy sf.key, keyTest (sf.key.getD "")),
           (truthy sf.mood, moodTest (sf.mood.getD "")),
           (truthy sf.instrument, instrumentTest (sf.instrument.getD ""))]) ts = .ok res := h2
    exact List.Sublist.subset (applyPasses_drop_mid _ _ _ _ _ h1' h2')
  | max_bpm =>
    have h1' : applyPasses
        ([(truthy sf.filename, filenameTest (sf.filename.getD "")),
          (truthy sf.min_bpm, minBpmTest (sf.min_bpm.getD ""))] ++
          (truthy (some v), maxBpmTest v) ::
          [(truthy sf.key, keyTest (sf.key.getD "")),
           (truthy sf.mood, moodTest (sf.mood.getD "")),
           (truthy sf.instrument, instrumentTest (sf.instrument.getD ""))]) ts = .ok res' := h1
    have h2' : applyPasses
        ([(truthy sf.filename, filenameTest (sf.filename.getD "")),
          (truthy sf.min_bpm, minBpmTest (sf.min_bpm.getD ""))] ++
          (false, maxBpmTest "") ::
          [(truthy sf.key, keyTest (sf.key.getD "")),
           (truthy sf.mood, moodTest (sf.mood.getD "")),
           (truthy sf.instrument, instrumentTest (sf.instrument.getD ""))]) ts = .ok res := h2
    exact List.Sublist.subset (applyPasses_drop_mid _ _ _ _ _ h1' h2')
  | key =>
    have h1' : applyPasses
        ([(truthy sf.filename, filenameTest (sf.filename.getD "")),
          (truthy sf.min_bpm, minBpmTest (sf.min_bpm.getD "")),
          (truthy sf.max_bpm, maxBpmTest (sf.max_bpm.getD ""))] ++
          (truthy (some v), keyTest v) ::
          [(truthy sf.mood, moodTest (sf.mood.getD "")),
           (truthy sf.instrument, instrumentTest (sf.instrument.getD ""))]) ts = .ok res' := h1
    have h2' : applyPasses
        ([(truthy sf.filename, filenameTest (sf.filename.getD "")),
          (truthy sf.min_bpm, minBpmTest (sf.min_bpm.getD "")),
          (truthy sf.max_bpm, maxBpmTest (sf.max_bpm.getD ""))] ++
          (false, keyTest "") ::
          [(truthy sf.mood, moodTest (sf.mood.getD "")),
           (truthy sf.instrument, instrumentTest (sf.instrument.getD ""))]) ts = .ok res := h2
    exact List.Sublist.subset (applyPasses_drop_mid _ _ _ _ _ h1' h2')
  | mood =>
    have h1' : applyPasses
        ([(truthy sf.filename, filenameTest (sf.filename.getD "")),
          (truthy sf.min_bpm, minBpmTest (sf.min_bpm.getD "")),
          (truthy sf.max_bpm, maxBpmTest (sf.max_bpm.getD "")),
          (truthy sf.key, keyTest (sf.key.getD ""))] ++
          (truthy (some v), moodTest v) ::
          [(truthy sf.instrument, instrumentTest (sf.instrument.getD ""))]) ts = .ok res' := h1
    have h2' : applyPasses
        ([(truthy sf.filename, filenameTest (sf.filename.getD "")),
          (truthy sf.min_bpm, minBpmTest (sf.min_bpm.getD "")),
          (truthy sf.max_bpm, maxBpmTest (sf.max_bpm.getD "")),
          (truthy sf.key, keyTest (sf.key.getD ""))] ++
          (false, moodTest "") ::
          [(truthy sf.instrument, instrumentTest (sf.instrument.getD ""))]) ts = .ok res := h2
    exact List.Sublist.subset (applyPasses_drop_mid _ _ _ _ _ h1' h2')
  | instrument =>
    have h1' : applyPasses
        ([(truthy sf.filename, filenameTest (sf.filename.getD "")),
          (truthy sf.min_bpm, minBpmTest (sf.min_bpm.getD "")),
          (truthy sf.max_bpm, maxBpmTest (sf.max_bpm.getD "")),
          (truthy sf.key, keyTest (sf.key.getD "")),
          (truthy sf.mood, moodTest (sf.mood.getD ""))] ++
          (truthy (some v), instrumentTest v) :: []) ts = .ok res' := h1
    have h2' : applyPasses
        ([(truthy sf.filename, filenameTest (sf.filename.getD "")),
          (truthy sf.min_bpm, minBpmTest (sf.min_bpm.getD "")),
          (truthy sf.max_bpm, maxBpmTest (sf.max_bpm.getD "")),
          (truthy sf.key, keyTest (sf.key.getD "")),
          (truthy sf.mood, moodTest (sf.mood.getD ""))] ++
          (false, instrumentTest "") :: []) ts = .ok res := h2
    exact List.Sublist.subset (applyPasses_drop_mid _ _ _ _ _ h1' h2')
  | filename =>
    have h1' : applyPasses
        ([] ++ (truthy (some v), filenameTest v) ::
          [(truthy sf.min_bpm, minBpmTest (sf.min_bpm.getD "")),
           (truthy sf.max_bpm, maxBpmTest (sf.max_bpm.getD "")),
           (truthy sf.key, keyTest (sf.key.getD "")),
           (truthy sf.mood, moodTest (sf.mood.getD "")),
           (truthy sf.instrument, instrumentTest (sf.instrument.getD ""))]) ts = .ok res' := h1
    have h2' : applyPasses
        ([] ++ (false, filenameTest "") ::
          [(truthy sf.min_bpm, minBpmTest (sf.min_bpm.getD "")),
           (truthy sf.max_bpm, maxBpmTest (sf.max_bpm.getD "")),
           (truthy sf.key, keyTest (sf.key.getD "")),
           (truthy sf.mood, moodTest (sf.mood.getD "")),
           (truthy sf.instrument, instrumentTest (sf.instrument.getD ""))]) ts = .ok res := h2
    exact List.Sublist.subset (applyPasses_drop_mid _ _ _ _ _ h1' h2')

/-- C4 as stated is false: a record lacking a string-typed field under the
corresponding active filter is not excluded; the filter operation throws.
Here a key filter over a library holding one record with no key raises a
TypeError instead of returning a list without the record. -/
theorem applyFilters_absent_key_counterexample :
    applyFilters keyOnlyFilters [noKeyTrack] = .error .typeError
  ∧ applyFilters keyOnlyFilters [noKeyTrack] ≠ .ok [] :=
  ⟨rfl, fun h => Except.noConfusion ((rfl :
      applyFilters keyOnlyFilters [noKeyTrack] = .error .typeError).symm.trans h)⟩

/-- C4 amended: a record lacking bpm is excluded by an active min_bpm or
max_bpm predicate (a JavaScript comparison with undefined is false), but a
record lacking one of the four string-typed fields (filename, key,
mood_tags, instruments) under the corresponding active filter makes the
whole filter operation throw a TypeError instead of excluding the record;
each throw is shown with the earlier passes inactive, so that the record
reaches the throwing pass (the filename pass runs first and needs no such
condition). -/
theorem applyFilters_absent_field_behavior (sf : SearchFilters) (ts res : List Track) (t : Track) :
    ((applyFilters sf ts = .ok res ∧ truthy sf.min_bpm = true ∧ t.bpm = none) → t ∉ res)
  ∧ ((applyFilters sf ts = .ok res ∧ truthy sf.max_bpm = true ∧ t.bpm = none) → t ∉ res)
  ∧ ((truthy sf.filename = true ∧ t ∈ ts ∧ t.filename = none) →
      applyFilters sf ts = .error .typeError)
  ∧ ((truthy sf.key = true ∧ truthy sf.filename = false ∧ truthy sf.min_bpm = false ∧
      truthy sf.max_bpm = false ∧ t ∈ ts ∧ t.key = none) →
      applyFilters sf ts = .error .typeError)
  ∧ ((truthy sf.mood = true ∧ truthy sf.filename = false ∧ truthy sf.min_bpm = false ∧
      truthy sf.max_bpm = false ∧ truthy sf.key = false ∧ t ∈ ts ∧ t.mood_tags = none) →
      applyFilters sf ts = .error .typeError)
  ∧ ((truthy sf.instrument = true ∧ truthy sf.filename = false ∧ truthy sf.min_bpm = false ∧
      truthy sf.max_bpm = false ∧ truthy sf.key = false ∧ truthy sf.mood = false ∧
      t ∈ ts ∧ t.instruments = none) →
      applyFilters sf ts = .error .typeError) := by
  refine ⟨?_, ?_, ?_, ?_, ?_, ?_⟩
  · rintro ⟨hok, hc, hnone⟩ ht
    obtain ⟨b, m, hb, -, -⟩ :=
      (applyFilters_satisfies_active_predicates sf ts res t hok ht).1 hc
    rw [hnone] at hb
    cases hb
  · rintro ⟨hok, hc, hnone⟩ ht
    obtain ⟨b, m, hb, -, -⟩ :=
      (applyFilters_satisfies_active_predicates sf ts res t hok ht).2.1 hc
    rw [hnone] at hb
    cases hb
  · rintro ⟨hfn, htmem, hnone⟩
    unfold applyFilters passes
    rw [hfn]
    exact applyPasses_cons_true_error
      (filterM_error_of_mem htmem (by simp [filenameTest, hnone]))
  · rintro ⟨hkey, hf, hmin, hmax, htmem, hnone⟩
    unfold applyFilters passes
    rw [hf, hmin, hmax, hkey]
    rw [applyPasses_cons_false, applyPasses_cons_false, applyPasses_cons_false]
    exact applyPasses_cons_true_error
      (filterM_error_of_mem htmem (by simp [keyTest, hnone]))
  · rintro ⟨hmood, hf, hmin, hmax, hk, htmem, hnone⟩
    unfold applyFilters passes
    rw [hf, hmin, hmax, hk, hmood]
    rw [applyPasses_cons_false, applyPasses_cons_false, applyPasses_cons_false,
      applyPasses_cons_false]
    exact applyPasses_cons_true_error
      (filterM_error_of_mem htmem (by simp [moodTest, hnone]))
  · rintro ⟨hinst, hf, hmin, hmax, hk, hmood, htmem, hnone⟩
    unfold applyFilters passes
    rw [hf, hmin, hmax, hk, hmood, hinst]
    rw [applyPasses_cons_false, applyPasses_cons_false, applyPasses_cons_false,
      applyPasses_cons_false, applyPasses_cons_false]
    exact applyPasses_cons_true_error
      (filterM_error_of_mem htmem (by simp [instrumentTest, hnone]))

/-- Witness for the amended C4: a record with no bpm is dropped by a
min_bpm and by a max_bpm filter, and each of the four string predicates
throws over a library containing a record that lacks the matching field. -/
theorem applyFilters_absent_field_behavior_witness :
    applyFilters ⟨some "50", none, none, none, none, none⟩ [sampleTrack, noBpmTrack] =
        .ok [sampleTrack]
  ∧ noBpmTrack ∉ [sampleTrack]
  ∧ applyFilters ⟨none, some "200", none, none, none, none⟩ [slowTrack, noBpmTrack] =
        .ok [slowTrack]
  ∧ noBpmTrack ∉ [slowTrack]
  ∧ applyFilters filenameOnlyFilters [sampleTrack, noFilenameTrack] = .error .typeError
  ∧ applyFilters keyOnlyFilters [sampleTrack, noKeyTrack] = .error .typeError
  ∧ applyFilters moodOnlyFilters [sampleTrack, noMoodTrack] = .error .typeError
  ∧ applyFilters instrumentOnlyFilters [sampleTrack, noInstrumentTrack] = .error .typeError :=
  ⟨rfl,
    (applyFilters_absent_field_behavior ⟨some "50", none, none, none, none, none⟩
      [sampleTrack, noBpmTrack] [sampleTrack] noBpmTrack).1 ⟨rfl, rfl, rfl⟩,
    rfl,
    (applyFilters_absent_field_behavior ⟨none, some "200", none, none, none, none⟩
      [slowTrack, noBpmTrack] [slowTrack] noBpmTrack).2.1 ⟨rfl, rfl, rfl⟩,
    (applyFilters_absent_field_behavior filenameOnlyFilters [sampleTrack, noFilenameTrack] []
      noFilenameTrack).2.2.1 ⟨rfl, by simp, rfl⟩,
    (applyFilters_absent_field_behavior keyOnlyFilters [sampleTrack, noKeyTrack] []
      noKeyTrack).2.2.2.1 ⟨rfl, rfl, rfl, rfl, by simp, rfl⟩,
    (applyFilters_absent_field_behavior moodOnlyFilters [sampleTrack, noMoodTrack] []
      noMoodTrack).2.2.2.2.1 ⟨rfl, rfl, rfl, rfl, rfl, by simp, rfl⟩,
    (applyFilters_absent_field_behavior instrumentOnlyFilters [sampleTrack, noInstrumentTrack] []
      noInstrumentTrack).2.2.2.2.2 ⟨rfl, rfl, rfl, rfl, rfl, rfl, by simp, rfl⟩⟩

/-- Witness for C5: key omitted versus key set to a value matching no
record, over a concrete two-track library. -/
theorem applyFilters_omitted_superset_witness :
    applyFilters (setField ⟨none, none, none, none, none, none⟩ .key (some "zzz"))
        [sampleTrack, slowTrack] = .ok []
  ∧ applyFilters (setField ⟨none, none, none, none, none, none⟩ .key none)
        [sampleTrack, slowTrack] = .ok [sampleTrack, slowTrack]
  ∧ ([] : List Track) ⊆ [sampleTrack, slowTrack] :=
  ⟨rfl, rfl, applyFilters_omitted_superset .key "zzz" ⟨none, none, none, none, none, none⟩
    [sampleTrack, slowTrack] [sampleTrack, slowTrack] [] rfl rfl⟩

/-! ### The Mongo index initialization script -/

/-- One createIndex call: the indexed field paths in order, and whether the
unique option is set. -/
structure IndexSpec where
  keys : List String
  unique : Bool
deriving DecidableEq, Repr

/-- The createIndex calls that src/mongo-init.js issues on the tracks
collection, in script order. -/
def tracksIndexes : List IndexSpec :=
  [ ⟨["user_id"], false⟩,
    ⟨["id"], true⟩,
    ⟨["bpm"], false⟩,
    ⟨["key"], false⟩,
    ⟨["mood_tags"], false⟩,
    ⟨["instruments.name"], false⟩,
    ⟨["analyzed_at"], false⟩,
    ⟨["user_id", "bpm", "key"], false⟩ ]

/-- The createIndex calls that src/mongo-init.js issues on the users
collection, in script order. -/
def usersIndexes : List IndexSpec :=
  [ ⟨["username"], true⟩, ⟨["email"], true⟩ ]

/-- C7: the persisted track schema defines the required indexes: a unique
index on id, an index on the owner identifier (user_id), a compound index
on (user_id, bpm, key), and secondary indexes on mood_tags and
instruments.name. -/
theorem tracksIndexes_required :
    (⟨["id"], true⟩ : IndexSpec) ∈ tracksIndexes
  ∧ (⟨["user_id"], false⟩ : IndexSpec) ∈ tracksIndexes
  ∧ (⟨["user_id", "bpm", "key"], false⟩ : IndexSpec) ∈ tracksIndexes
  ∧ (⟨["mood_tags"], false⟩ : IndexSpec) ∈ tracksIndexes
  ∧ (⟨["instruments.name"], false⟩ : IndexSpec) ∈ tracksIndexes := by
  refine ⟨?_, ?_, ?_, ?_, ?_⟩ <;> simp [tracksIndexes]

/-! ### The batch coordinator (spec-modelled) -/

/-- Modelled from the spec: the per-item outcome of the Batch Coordinator
of section 4.3, whose backend implementation is not under src/ (only its
HTTP caller handleUpload is): either the created track identifier or an
error descriptor. -/
inductive Outcome where
  | success (id : String)
  | failure (err : String)
deriving DecidableEq, Repr

/-- Whether a per-item outcome is a success. -/
def Outcome.isSuccess : Outcome → Bool
  | .success _ => true
  | .failure _ => false

/-- Modelled from the spec: one entry of the results sequence of a
BatchReport, pairing the input filename with its outcome. -/
structure BatchItemResult where
  filename : String
  outcome : Outcome
deriving DecidableEq, Repr

/-- Modelled from the spec: the BatchReport of section 4.3 with a success
count, a failure count and the ordered per-item results. -/
structure BatchReport where
  successful : Nat
  failed : Nat
  results : List BatchItemResult
deriving DecidableEq, Repr

/-- Modelled from the spec: run_batch of section 4.3, whose backend
implementation is not under src/.  Each input is processed in isolation by
the per-item operation (aggregation followed by persistence, both folded
into the abstract process function), results are kept in input order, and
the counts tally the successful and failed outcomes. -/
def run_batch {α : Type} (fname : α → String) (process : α → Outcome)
    (inputs : List α) : BatchReport :=
  let results := inputs.map fun i => BatchItemResult.mk (fname i) (process i)
  { successful := (results.filter fun r => r.outcome.isSuccess).length,
    failed := (results.filter fun r => !r.outcome.isSuccess).length,
    results := results }

theorem length_filter_add_length_filter_not {α : Type} (p : α → Bool) (l : List α) :
    (l.filter p).length + (l.filter fun x => !p x).length = l.length := by
  induction l with
  | nil => rfl
  | cons a l ih =>
    cases hp : p a <;> simp [List.filter_cons, hp, ← ih] <;> omega

/-- C6: for every batch of N inputs and every per-item behavior, the batch
report satisfies successful plus failed equals N, the results sequence has
length N, and the results keep the input order (their filenames are the
input filenames in order). -/
theorem run_batch_report {α : Type} (fname : α → String) (process : α → Outcome)
    (inputs : List α) :
    (run_batch fname process inputs).successful + (run_batch fname process inputs).failed =
        inputs.length
  ∧ (run_batch fname process inputs).results.length = inputs.length
  ∧ (run_batch fname process inputs).results.map BatchItemResult.filename =
        inputs.map fname := by
  refine ⟨?_, ?_, ?_⟩
  · simpa [run_batch] using
      length_filter_add_length_filter_not
        (fun r => r.outcome.isSuccess)
        (inputs.map fun i => BatchItemResult.mk (fname i) (process i))
  · simp [run_batch]
  · simp [run_batch]

/-! ### The statistics operation (spec-modelled) -/

/-- Rounding to one decimal: multiply by ten, round to the nearest integer,
divide by ten. -/
def round1 (q : Rat) : Rat := (round (q * 10) : Rat) / 10

/-- Modelled from the spec: the bpm values of the records of one owner that
carry a bpm, in store order; the backend stats endpoint is not under src/
(only its HTTP caller fetchStats is). -/
def ownerBpms (store : List Track) (owner : String) : List Rat :=
  (store.filter fun t => t.user_id == some owner).filterMap Track.bpm

/-- Modelled from the spec: avg_bpm of the stats operation of section 4.4,
whose backend implementation is not under src/: the arithmetic mean of bpm
over the owner records where bpm is present, rounded to one decimal, and 0
when no such record exists. -/
def statsAvgBpm (store : List Track) (owner : String) : Rat :=
  let bs := ownerBpms store owner
  if bs.isEmpty then 0 else round1 (bs.sum / bs.length)

/-- C8: for every owner, avg_bpm is 0 (not an error) when no record of the
owner carries a bpm, and otherwise it is the arithmetic mean of the present
bpm values rounded to one decimal. -/
theorem statsAvgBpm_spec (store : List Track) (owner : String) :
    ((∀ t ∈ store, t.user_id = some owner → t.bpm = none) → statsAvgBpm store owner = 0)
  ∧ (ownerBpms store owner ≠ [] →
      statsAvgBpm store owner =
        round1 ((ownerBpms store owner).sum / (ownerBpms store owner).length)) := by
  constructor
  · intro h
    have hnil : ownerBpms store owner = [] := by
      rw [ownerBpms, List.filterMap_eq_nil_iff]
      intro t htmem
      rw [h t (List.mem_of_mem_filter htmem)
        (by simpa using List.of_mem_filter htmem)]
    rw [statsAvgBpm, hnil]
    rfl
  · intro h
    rw [statsAvgBpm]
    simp only [List.isEmpty_iff, h, if_false]

/-- Witness for C8: an owner with no bpm-carrying records gets 0, and an
owner with bpm values 130 and 90 gets 110.0. -/
theorem statsAvgBpm_spec_witness :
    statsAvgBpm [⟨"a", some "u1", some "x.wav", some 5, none, none, some [], some []⟩] "u1" = 0
  ∧ statsAvgBpm
      [⟨"a", some "u2", some "x.wav", some 5, some 130, none, some [], some []⟩,
       ⟨"b", some "u2", some "y.wav", some 5, some 90, none, some [], some []⟩] "u2" =
      round1 ((130 + (90 + 0) : Rat) / 2) :=
  ⟨(statsAvgBpm_spec [⟨"a", some "u1", some "x.wav", some 5, none, none, some [], some []⟩]
      "u1").1 (by intro t ht hu; simp at ht; subst ht; rfl),
    (statsAvgBpm_spec
      [⟨"a", some "u2", some "x.wav", some 5, some 130, none, some [], some []⟩,
       ⟨"b", some "u2", some "y.wav", some 5, some 90, none, some [], some []⟩] "u2").2
      (by decide)⟩

/-! ### The Dashboard state transition of applyFilters -/

/-- The part of the Dashboard component state that applyFilters touches:
the tracks array, the filteredTracks array and the searchFilters object. -/
structure DashboardState where
  tracks : List Track
  filteredTracks : List Track
  searchFilters : SearchFilters
deriving DecidableEq, Repr

/-- applyFilters as a transition on the component state: the source copies
tracks with a spread, narrows the copy with non-mutating Array.filter calls
whose callbacks only read track fields, and assigns the outcome to the
separate filteredTracks state via setFilteredTracks; a thrown TypeError
produces no new state. -/
def applyFiltersState (s : DashboardState) : Except JsError DashboardState :=
  match applyFilters s.searchFilters s.tracks with
  | .error e => .error e
  | .ok r => .ok { s with filteredTracks := r }

/-- C10: applyFilters never mutates its input: after a run, the tracks
array and every record in it are unchanged (and so is the searchFilters
object); only the separate filteredTracks state is reassigned, to the
filtered result. -/
theorem applyFiltersState_frame (s s' : DashboardState)
    (h : applyFiltersState s = .ok s') :
    s'.tracks = s.tracks ∧ s'.searchFilters = s.searchFilters ∧
    applyFilters s.searchFilters s.tracks = .ok s'.filteredTracks := by
  rw [applyFiltersState] at h
  cases hrun : applyFilters s.searchFilters s.tracks with
  | error e => rw [hrun] at h; cases h
  | ok r =>
    rw [hrun] at h
    injection h with h
    subst h
    exact ⟨rfl, rfl, rfl⟩

/-- Witness for C10: a concrete state whose tracks and filters survive a
filter run unchanged. -/
theorem applyFiltersState_frame_witness :
    applyFiltersState ⟨[sampleTrack, slowTrack], [], ⟨some "100", none, none, none, none, none⟩⟩ =
      .ok ⟨[sampleTrack, slowTrack], [sampleTrack], ⟨some "100", none, none, none, none, none⟩⟩
  ∧ [sampleTrack, slowTrack] = [sampleTrack, slowTrack]
  ∧ applyFilters ⟨some "100", none, none, none, none, none⟩ [sampleTrack, slowTrack] =
      .ok [sampleTrack] :=
  ⟨rfl,
    (applyFiltersState_frame
      ⟨[sampleTrack, slowTrack], [], ⟨some "100", none, none, none, none, none⟩⟩
      ⟨[sampleTrack, slowTrack], [sampleTrack], ⟨some "100", none, none, none, none, none⟩⟩
      rfl).1,
    (applyFiltersState_frame
      ⟨[sampleTrack, slowTrack], [], ⟨some "100", none, none, none, none, none⟩⟩
      ⟨[sampleTrack, slowTrack], [sampleTrack], ⟨some "100", none, none, none, none, none⟩⟩
      rfl).2.2⟩

end BeatAnalyzer
